import Mathlib

/-!
Verification of the notebook linting engine (`pynblint/nb_linting.py`).

The data model and all rule functions below are shallow embeddings of the
Python source.  A notebook is a list of cells plus the filename and the
reconstructed script (the `Notebook` helper class that carries `nb_dict`,
`path.name` and `script` lives outside the linting module; the linting
functions only read those three pieces of data, which we store directly).

The external Python parser (`ast.parse`) is modelled as an oracle of type
`PyParse`: it either fails (a `SyntaxError`, modelled as `Except.error ()`)
or returns the list of top-level statements of the module, abstracted to
their kind (`PyStmt`).  Rule functions that call `ast.parse` take the oracle
as an explicit argument.
-/

/-- Kind tag of a notebook cell (`cell["cell_type"]`). -/
inductive CellType
  | code
  | markdown
  | raw
  deriving DecidableEq

/-- One notebook cell.  `source` is the cell text (nbformat normalises it to
a single string); `executionCount` is `cell["execution_count"]`, `none` when
the cell was never run.  Only code cells carry a meaningful count, matching
the Python dictionaries where the key exists only there; the linting code
never reads it on other cell types. -/
structure Cell where
  cellType : CellType
  source : String
  executionCount : Option Int
  deriving DecidableEq

/-- The data the linting functions read from a `Notebook` object: the cell
list (`notebook.nb_dict["cells"]`), the filename (`notebook.path.name`) and
the reconstructed program text (`notebook.script`). -/
structure Notebook where
  cells : List Cell
  name : String
  script : String
  deriving DecidableEq

/-- Kind of a top-level Python statement, as far as the linter inspects it
with `isinstance`: `ast.Import`, `ast.ImportFrom`, `ast.FunctionDef`,
`ast.ClassDef`, or anything else. -/
inductive PyStmt
  | importStmt
  | importFrom
  | funcDef
  | classDef
  | other
  deriving DecidableEq

/-- Test for `isinstance(exp, ast.Import)` (note: `from x import y` is an
`ast.ImportFrom` and is not matched by the source code's check). -/
def isImport : PyStmt → Bool
  | PyStmt.importStmt => true
  | _ => false

/-- Test for `isinstance(exp, ast.FunctionDef)`. -/
def isFuncDef : PyStmt → Bool
  | PyStmt.funcDef => true
  | _ => false

/-- Test for `isinstance(exp, ast.ClassDef)`. -/
def isClassDef : PyStmt → Bool
  | PyStmt.classDef => true
  | _ => false

deriving instance DecidableEq for Except

/-- Oracle modelling `ast.parse`: a syntax error is `Except.error ()`,
success returns the kinds of the top-level statements (`tree.body`). -/
def PyParse : Type := String → Except Unit (List PyStmt)

/-- Model of Python's `s.split("\n")` on the character list: split at every
newline, keeping empty pieces; the empty string yields one empty piece. -/
def splitNlChars : List Char → List (List Char)
  | [] => [[]]
  | c :: rest =>
    if c = '\n' then [] :: splitNlChars rest
    else
      match splitNlChars rest with
      | [] => [[c]]
      | piece :: pieces => (c :: piece) :: pieces

/-- Model of Python's `code.split("\n")`: the list of lines of a string. -/
def pySplitLines (s : String) : List String :=
  (splitNlChars s.data).map (fun cs => String.mk cs)

/-- Classification of one line by a straight-line stand-in for the Python
parser (used only to give concrete witnesses): a blank line is no statement,
a line starting with the word import is an import statement, anything else
is some other statement. -/
def lineToStmt (l : String) : Option PyStmt :=
  if l = "" then none
  else if l.take 7 = "import " then some PyStmt.importStmt
  else some PyStmt.other

/-- Concrete parse oracle for witnesses: models `ast.parse` on straight-line
programs in which every non-blank line is a single top-level statement. -/
def miniPyParse : PyParse :=
  fun s => Except.ok ((pySplitLines s).filterMap lineToStmt)

/-- Parse oracle that fails on every input, modelling a reconstructed
program that is not syntactically valid Python. -/
def failPyParse : PyParse := fun _ => Except.error ()

/- ## Structural metrics (`count_cells` and friends) -/

/-- Embedding of `count_cells`: `len(nb_dict["cells"])`. -/
def count_cells (nb : Notebook) : Nat := nb.cells.length

/-- Embedding of `count_md_cells`: counter loop over the cells. -/
def count_md_cells (nb : Notebook) : Nat :=
  nb.cells.foldl
    (fun counter cell =>
      if cell.cellType = CellType.markdown then counter + 1 else counter) 0

/-- Embedding of `count_code_cells`. -/
def count_code_cells (nb : Notebook) : Nat :=
  nb.cells.foldl
    (fun counter cell =>
      if cell.cellType = CellType.code then counter + 1 else counter) 0

/-- Embedding of `count_raw_cells`. -/
def count_raw_cells (nb : Notebook) : Nat :=
  nb.cells.foldl
    (fun counter cell =>
      if cell.cellType = CellType.raw then counter + 1 else counter) 0

/-- Embedding of `count_md_lines`: for each markdown cell add
`len(cell["source"].split("\n"))`. -/
def count_md_lines (nb : Notebook) : Nat :=
  nb.cells.foldl
    (fun acc cell =>
      if cell.cellType = CellType.markdown then
        acc + ((pySplitLines cell.source).length)
      else acc) 0

/-- Test performed by `count_md_titles` on one element of the iteration over
`cell["source"]`.  Since nbformat stores the source as a single string, the
Python `for row in cell["source"]` iterates over characters; a one-character
string satisfies `row.lstrip().startswith("#")` exactly when it is not
whitespace (which `lstrip` would remove entirely) and is the hash
character. -/
def rowIsTitle (c : Char) : Bool :=
  if c.isWhitespace then false else c == '#'

/-- Embedding of `count_md_titles`: for each markdown cell, count the
elements of the source iteration satisfying the title test. -/
def count_md_titles (nb : Notebook) : Nat :=
  nb.cells.foldl
    (fun acc cell =>
      if cell.cellType = CellType.markdown then
        cell.source.data.foldl
          (fun titles c => if rowIsTitle c then titles + 1 else titles) acc
      else acc) 0

/- ## Non-executed / empty cell counts -/

/-- Embedding of `_non_executed_cells_count`: code cells with
`execution_count is None` and `len(source) > 0`. -/
def non_executed_cells_count (cellList : List Cell) : Nat :=
  cellList.foldl
    (fun n cell =>
      if cell.cellType = CellType.code then
        if cell.executionCount = none ∧ 0 < cell.source.length then n + 1 else n
      else n) 0

/-- Embedding of `_empty_cells_count`: code cells with
`execution_count is None` and `len(source) == 0`. -/
def empty_cells_count (cellList : List Cell) : Nat :=
  cellList.foldl
    (fun n cell =>
      if cell.cellType = CellType.code then
        if cell.executionCount = none ∧ cell.source.length = 0 then n + 1 else n
      else n) 0

/-- Embedding of `count_non_executed_cells`. -/
def count_non_executed_cells (nb : Notebook) : Nat :=
  non_executed_cells_count nb.cells

/-- Embedding of `count_empty_cells`. -/
def count_empty_cells (nb : Notebook) : Nat :=
  empty_cells_count nb.cells

/- ## Linear execution order -/

/-- One step of the `has_linear_execution_order` loop.  The accumulator is
the pair (correct_exec, counter).  For a code cell: on `counter ==
execution_count` advance the counter; otherwise, when the source is
non-empty, set the result to false (the counter is neither reset nor
advanced). -/
def hleoStep (acc : Bool × Int) (cell : Cell) : Bool × Int :=
  if cell.cellType = CellType.code then
    if cell.executionCount = some acc.2 then (acc.1, acc.2 + 1)
    else if cell.source = "" then acc
    else (false, acc.2)
  else acc

/-- Embedding of `has_linear_execution_order`. -/
def has_linear_execution_order (nb : Notebook) : Bool :=
  (nb.cells.foldl hleoStep (true, 1)).1

/- ## Syntax-tree rules -/

/-- Embedding of `count_func_defs`: parse the reconstructed script, then
count the top-level function definitions; a parse failure propagates. -/
def count_func_defs (parse : PyParse) (nb : Notebook) : Except Unit Nat :=
  match parse nb.script with
  | Except.error e => Except.error e
  | Except.ok tree => Except.ok (tree.countP fun s => isFuncDef s)

/-- Embedding of `count_class_defs`. -/
def count_class_defs (parse : PyParse) (nb : Notebook) : Except Unit Nat :=
  match parse nb.script with
  | Except.error e => Except.error e
  | Except.ok tree => Except.ok (tree.countP fun s => isClassDef s)

/-- Test for the nbconvert cell-boundary marker: `line[0:5] == "# In["`. -/
def isCellMarker (l : String) : Bool :=
  l.take 5 == "# In["

/-- Loop of `are_imports_in_first_cell` over the lines of the script.  The
four pieces of mutable state of the Python loop are passed explicitly:
`foundFirst` (a first marker has been seen), `secondNotReached` (the second
marker has not been seen yet), `buf` (the accumulated cell buffer, never
reset) and `correct` (the result so far).  Finding an import in a closed
buffer models the set-false-and-break of the source; a parse failure of the
buffer propagates. -/
def aiifcLoop (parse : PyParse) :
    List String → Bool → Bool → String → Bool → Except Unit Bool
  | [], _, _, _, correct => Except.ok correct
  | line :: rest, foundFirst, secondNotReached, buf, correct =>
    if !foundFirst then
      if isCellMarker line then aiifcLoop parse rest true secondNotReached buf correct
      else aiifcLoop parse rest false secondNotReached buf correct
    else if !secondNotReached then
      if !isCellMarker line then
        aiifcLoop parse rest foundFirst secondNotReached (buf ++ "\n" ++ line) correct
      else
        match parse buf with
        | Except.error e => Except.error e
        | Except.ok body =>
          if 0 < body.countP (fun s => isImport s) then Except.ok false
          else aiifcLoop parse rest foundFirst secondNotReached buf correct
    else
      if isCellMarker line then aiifcLoop parse rest foundFirst false buf correct
      else aiifcLoop parse rest foundFirst secondNotReached buf correct

/-- Embedding of `are_imports_in_first_cell`: run the loop over
`code.split("\n")` with the initial state of the source. -/
def are_imports_in_first_cell (parse : PyParse) (nb : Notebook) : Except Unit Bool :=
  aiifcLoop parse (pySplitLines nb.script) false true ("") true

/- ## Bottom-window rules -/

/-- Loop of `_extract_bottom_cells_of_code`: scan the reversed cell list
with a counter starting at 1; while `counter <= bottom_size`, append code
cells (advancing the counter) and skip other cells; break as soon as the
counter exceeds the window size. -/
def extractLoop (bottomSize : Nat) : List Cell → Nat → List Cell
  | [], _ => []
  | cell :: rest, counter =>
    if counter ≤ bottomSize then
      if cell.cellType = CellType.code then
        cell :: extractLoop bottomSize rest (counter + 1)
      else extractLoop bottomSize rest counter
    else []

/-- Embedding of `_extract_bottom_cells_of_code`: iterate over
`reversed(full_list)`. -/
def extract_bottom_cells_of_code (cells : List Cell) (bottomSize : Nat) : List Cell :=
  extractLoop bottomSize cells.reverse 1

/-- Embedding of `count_bottom_non_executed_cells`.  Python's true division
in the precondition `bottom_size < len(cells) / 3` is modelled by exact
rational division.  `none` models the `None` return when the precondition
fails. -/
def count_bottom_non_executed_cells (nb : Notebook) (bottomSize : Nat) : Option Nat :=
  if (bottomSize : ℚ) < (nb.cells.length : ℚ) / 3 then
    some (non_executed_cells_count (extract_bottom_cells_of_code nb.cells bottomSize))
  else none

/-- Embedding of `count_bottom_empty_cells`. -/
def count_bottom_empty_cells (nb : Notebook) (bottomSize : Nat) : Option Nat :=
  if (bottomSize : ℚ) < (nb.cells.length : ℚ) / 3 then
    some (empty_cells_count (extract_bottom_cells_of_code nb.cells bottomSize))
  else none

/-- Loop of `get_bottom_md_lines_ratio`: walk the cells with a position
counter starting at 1; a markdown cell adds its line count to the first
bucket when `cell_counter <= total_cells - bottom_size` (the threshold) and
to the bottom bucket otherwise.  The threshold uses truncated natural
subtraction, which agrees with Python's integer subtraction whenever the
loop is reached (the precondition forces `bottom_size < total_cells`), and
also classifies every position as bottom when the Python threshold would be
negative. -/
def gbmlrLoop (threshold : Nat) : List Cell → Nat → Nat → Nat → Nat × Nat
  | [], mdFirst, mdBottom, _ => (mdFirst, mdBottom)
  | cell :: rest, mdFirst, mdBottom, counter =>
    if counter ≤ threshold ∧ cell.cellType = CellType.markdown then
      gbmlrLoop threshold rest (mdFirst + ((pySplitLines cell.source).length))
        mdBottom (counter + 1)
    else if threshold < counter ∧ cell.cellType = CellType.markdown then
      gbmlrLoop threshold rest mdFirst
        (mdBottom + ((pySplitLines cell.source).length)) (counter + 1)
    else gbmlrLoop threshold rest mdFirst mdBottom (counter + 1)

/-- Final value of `get_bottom_md_lines_ratio` from the two buckets
`(md_first_cells, md_bottom_cells)`: zero when their sum is zero, otherwise
`md_bottom_cells / (md_first_cells + md_bottom_cells)`. -/
def mdRatioValue (p : Nat × Nat) : ℚ :=
  if p.1 + p.2 = 0 then 0 else (p.2 : ℚ) / ((p.1 : ℚ) + (p.2 : ℚ))

/-- Embedding of `get_bottom_md_lines_ratio`. -/
def get_bottom_md_lines_ratio (nb : Notebook) (bottomSize : Nat) : Option ℚ :=
  if (bottomSize : ℚ) < (count_cells nb : ℚ) / 3 then
    some (mdRatioValue (gbmlrLoop (count_cells nb - bottomSize) nb.cells 0 0 1))
  else none

/- ## Naming rules -/

/-- Embedding of `is_titled`: false exactly on the reserved default name. -/
def is_titled (nb : Notebook) : Bool :=
  if nb.name = "Untitled.ipynb" then false else true

/-- Embedding of `is_filename_charset_restricted`: the regular expression
search for the anchored pattern over `[A-Za-z0-9_.-]` succeeds exactly when
the name is non-empty and every character lies in that charset. -/
def is_filename_charset_restricted (nb : Notebook) : Bool :=
  !nb.name.isEmpty &&
    nb.name.data.all (fun c => c.isAlpha || c.isDigit || c == '_' || c == '.' || c == '-')

/- ## Lint result aggregation (`NotebookLinter.__init__`) -/

/-- Result value stored under one key of the linting report: a boolean, a
count, a ratio, or the Python `None` used as the not-applicable sentinel. -/
inductive LintValue
  | boolVal (b : Bool)
  | natVal (n : Nat)
  | ratVal (q : ℚ)
  | na
  deriving DecidableEq

/-- Store an optional count the way the Python dict does: `None` stays the
sentinel, a number is stored as itself. -/
def optNatVal : Option Nat → LintValue
  | none => LintValue.na
  | some n => LintValue.natVal n

/-- Store an optional ratio the way the Python dict does. -/
def optRatVal : Option ℚ → LintValue
  | none => LintValue.na
  | some q => LintValue.ratVal q

/-- The `results` dictionary built by `NotebookLinter.__init__`, with its
two nested mappings kept as ordered key-value lists. -/
structure LintResults where
  notebookName : String
  notebookStats : List (String × LintValue)
  lintingResults : List (String × LintValue)
  deriving DecidableEq

/-- Embedding of `NotebookLinter.__init__` with the default options
(`bottom_size = 4`, the filename-length rule disabled).  The three rules
that call `ast.parse` are fallible; in the source their exceptions
propagate out of the constructor, so a parse failure yields an error and no
report, which the `Except` bind reproduces. -/
def notebookLinterResults (parse : PyParse) (nb : Notebook) : Except Unit LintResults := do
  let classDefs ← count_class_defs parse nb
  let funcDefs ← count_func_defs parse nb
  let importsFirst ← are_imports_in_first_cell parse nb
  Except.ok
    { notebookName := nb.name
      notebookStats := [
        ("numberOfCells", LintValue.natVal (count_cells nb)),
        ("numberOfMDCells", LintValue.natVal (count_md_cells nb)),
        ("numberOfCodeCells", LintValue.natVal (count_code_cells nb)),
        ("numberOfRawCells", LintValue.natVal (count_raw_cells nb))]
      lintingResults := [
        ("linearExecutionOrder", LintValue.boolVal (has_linear_execution_order nb)),
        ("numberOfClassDefinitions", LintValue.natVal classDefs),
        ("numberOfFunctionDefinitions", LintValue.natVal funcDefs),
        ("allImportsInFirstCell", LintValue.boolVal importsFirst),
        ("numberOfMarkdownLines", LintValue.natVal (count_md_lines nb)),
        ("numberOfMarkdownTitles", LintValue.natVal (count_md_titles nb)),
        ("bottomMarkdownLinesRatio", optRatVal (get_bottom_md_lines_ratio nb 4)),
        ("nonExecutedCells", LintValue.natVal (count_non_executed_cells nb)),
        ("emptyCells", LintValue.natVal (count_empty_cells nb)),
        ("bottomNonExecutedCells", optNatVal (count_bottom_non_executed_cells nb 4)),
        ("bottomEmptyCells", optNatVal (count_bottom_empty_cells nb 4)),
        ("isTitled", LintValue.boolVal (is_titled nb)),
        ("isFilenameCharsetRestr", LintValue.boolVal (is_filename_charset_restricted nb))] }

/-- All keys of a linting report, in construction order: the notebook
statistics keys followed by the rule keys (empty when the analysis
failed). -/
def reportKeys (e : Except Unit LintResults) : List String :=
  match e with
  | Except.error _ => []
  | Except.ok r => (r.notebookStats.map Prod.fst) ++ (r.lintingResults.map Prod.fst)

/-- The report computed for the empty notebook, with every value written
out. -/
def emptyNotebookReport : LintResults :=
  { notebookName := "nb.ipynb"
    notebookStats := [
      ("numberOfCells", LintValue.natVal 0),
      ("numberOfMDCells", LintValue.natVal 0),
      ("numberOfCodeCells", LintValue.natVal 0),
      ("numberOfRawCells", LintValue.natVal 0)]
    lintingResults := [
      ("linearExecutionOrder", LintValue.boolVal true),
      ("numberOfClassDefinitions", LintValue.natVal 0),
      ("numberOfFunctionDefinitions", LintValue.natVal 0),
      ("allImportsInFirstCell", LintValue.boolVal true),
      ("numberOfMarkdownLines", LintValue.natVal 0),
      ("numberOfMarkdownTitles", LintValue.natVal 0),
      ("bottomMarkdownLinesRatio", LintValue.na),
      ("nonExecutedCells", LintValue.natVal 0),
      ("emptyCells", LintValue.natVal 0),
      ("bottomNonExecutedCells", LintValue.na),
      ("bottomEmptyCells", LintValue.na),
      ("isTitled", LintValue.boolVal true),
      ("isFilenameCharsetRestr", LintValue.boolVal true)] }

/- ## Specification-side definitions used to state the claims -/

/-- Expected-counter update of the execution-order scan, as the claim
describes it: the counter advances exactly when a code cell's execution
count equals it. -/
def execNext (k : Int) (cell : Cell) : Int :=
  if cell.cellType = CellType.code ∧ cell.executionCount = some k then k + 1 else k

/-- Expected counter after scanning a list of cells, starting from `k`. -/
def execCounterAfter (k : Int) (l : List Cell) : Int :=
  l.foldl execNext k

/-- Total number of markdown source lines of a list of cells (each markdown
cell contributes `len(source.split("\n"))` lines). -/
def mdSourceLines : List Cell → Nat
  | [] => 0
  | cell :: rest =>
    (if cell.cellType = CellType.markdown then (pySplitLines cell.source).length else 0)
      + mdSourceLines rest

/-- Predicate over the lines that follow the second boundary marker: every
closed cell buffer (the buffer accumulated when a further marker is
reached) parses and contains no top-level import statement.  The buffer
accumulates exactly as in the source: markers never reset it. -/
def buffersParseNoImport (parse : PyParse) : List String → String → Bool
  | [], _ => true
  | l :: rest, buf =>
    if isCellMarker l then
      (match parse buf with
       | Except.error _ => false
       | Except.ok body => body.countP (fun s => isImport s) = 0)
      && buffersParseNoImport parse rest buf
    else buffersParseNoImport parse rest (buf ++ "\n" ++ l)

/-- Predicate over the lines that follow the second boundary marker: some
closed cell buffer parses to a body containing a top-level import, and
every buffer closed before it parses without an import. -/
def buffersHitImport (parse : PyParse) : List String → String → Bool
  | [], _ => false
  | l :: rest, buf =>
    if isCellMarker l then
      match parse buf with
      | Except.error _ => false
      | Except.ok body =>
        if 0 < body.countP (fun s => isImport s) then true
        else buffersHitImport parse rest buf
    else buffersHitImport parse rest (buf ++ "\n" ++ l)

/-- Buffer accumulated by the scan over a run of non-marker lines, starting
from `buf`: each line is appended after a newline. -/
def extendBuf (buf : String) (ls : List String) : String :=
  ls.foldl (fun b l => b ++ "\n" ++ l) buf

/-- Ratio definition transcribed from the words of the specification for the
markdown-distribution rule, for comparison with the source: the trailing
section is the last `total_cells - w` cell positions and the leading
section the remaining first `w` positions, and the result is
`bottom_lines / (bottom_lines + top_lines)` (zero when both are zero). -/
def bottomMdRatioSpecC7 (nb : Notebook) (w : Nat) : Option ℚ :=
  if (w : ℚ) < (count_cells nb : ℚ) / 3 then
    let bottom := mdSourceLines (nb.cells.drop w)
    let top := mdSourceLines (nb.cells.take w)
    some (if bottom + top = 0 then 0 else (bottom : ℚ) / ((bottom : ℚ) + (top : ℚ)))
  else none

/- ## Concrete notebooks used in witnesses and counterexamples -/

/-- Code cell with the given source and execution count. -/
def codeCell (src : String) (n : Option Int) : Cell :=
  { cellType := CellType.code, source := src, executionCount := n }

/-- Markdown cell with the given source. -/
def mdCell (src : String) : Cell :=
  { cellType := CellType.markdown, source := src, executionCount := none }

/-- Notebook whose reconstructed script has an import in its second cell,
with no further boundary marker after it. -/
def nbSecondCellImportUnclosed : Notebook :=
  { cells := [codeCell ("x = 1") (some 1), codeCell ("import os") (some 2)]
    name := "nb.ipynb"
    script := "# In[1]:\nx = 1\n# In[2]:\nimport os" }

/-- Notebook whose reconstructed script has an import in its second cell,
closed by a third boundary marker. -/
def nbSecondCellImportClosed : Notebook :=
  { cells := [codeCell ("x = 1") (some 1), codeCell ("import os") (some 2),
              codeCell ("pass") (some 3)]
    name := "nb.ipynb"
    script := "# In[1]:\nx = 1\n# In[2]:\nimport os\n# In[3]:\npass" }

/-- Notebook with a single code cell: its reconstructed script contains
exactly one boundary marker, and its only import sits in that first (never
closed) cell. -/
def nbSingleCellImport : Notebook :=
  { cells := [codeCell ("import os") (some 1)]
    name := "nb.ipynb"
    script := "# In[1]:\nimport os" }

/-- Notebook whose reconstructed script has its only import in the first
cell. -/
def nbImportFirstCellOnly : Notebook :=
  { cells := [codeCell ("import os") (some 1), codeCell ("x = 1") (some 2),
              codeCell ("pass") (some 3)]
    name := "nb.ipynb"
    script := "# In[1]:\nimport os\n# In[2]:\nx = 1\n# In[3]:\npass" }

/-- Notebook with three code cells executed in order 1, 2, 3. -/
def nbExecOrdered : Notebook :=
  { cells := [codeCell ("a = 1") (some 1), codeCell ("b = 2") (some 2),
              codeCell ("c = 3") (some 3)]
    name := "nb.ipynb"
    script := "" }

/-- Notebook with three code cells with execution counts 1, 3, 2, the cell
counted 3 having non-empty source. -/
def nbExecSwapped : Notebook :=
  { cells := [codeCell ("a = 1") (some 1), codeCell ("b = 2") (some 3),
              codeCell ("c = 3") (some 2)]
    name := "nb.ipynb"
    script := "" }

/-- Nine-cell notebook, all code, used for the bottom-window precondition
examples. -/
def nbNineCells : Notebook :=
  { cells := [codeCell ("a") (some 1), codeCell ("b") (some 2), codeCell ("c") (some 3),
              codeCell ("d") (some 4), codeCell ("e") (some 5), codeCell ("f") (some 6),
              codeCell ("g") (some 7), codeCell ("h") (some 8), codeCell ("i") (some 9)]
    name := "nb.ipynb"
    script := "" }

/-- Nine-cell notebook whose single markdown cell sits at position 5: it
lies in the code's leading section for window size 2 but in the trailing
section the specification describes. -/
def nbNineCellsMidMd : Notebook :=
  { cells := [codeCell ("a") (some 1), codeCell ("b") (some 2), codeCell ("c") (some 3),
              codeCell ("d") (some 4), mdCell ("title"), codeCell ("f") (some 5),
              codeCell ("g") (some 6), codeCell ("h") (some 7), codeCell ("i") (some 8)]
    name := "nb.ipynb"
    script := "" }

/-- Seven-cell notebook mixing cell kinds, used to exercise the bottom
window extraction: the last cells are, from the end, code, markdown, code,
code. -/
def nbWindowMix : Notebook :=
  { cells := [mdCell ("intro"), codeCell ("a = 1") (some 1), codeCell ("") none,
              codeCell ("b = 2") none, codeCell ("c = 3") (some 2), mdCell ("notes"),
              codeCell ("d = 4") none]
    name := "nb.ipynb"
    script := "" }

/-- Empty notebook with a parseable one-line script, used for the report
aggregation witnesses. -/
def nbEmptyCells : Notebook :=
  { cells := []
    name := "nb.ipynb"
    script := "x = 1" }

/- ## Helper lemmas -/

/-- A fold that adds one for each element satisfying a predicate computes
the initial value plus the count of such elements. -/
theorem foldl_count_step (p : Cell → Bool) (step : Nat → Cell → Nat)
    (hstep : ∀ n c, step n c = if p c then n + 1 else n) :
    ∀ (l : List Cell) (k : Nat), l.foldl step k = k + l.countP p := by
  intro l
  induction l with
  | nil => intro k; simp
  | cons c rest ih =>
    intro k
    rw [List.foldl_cons, List.countP_cons, hstep]
    by_cases h : p c = true
    · simp only [h, if_true, ih]
      omega
    · simp only [Bool.not_eq_true] at h
      simp only [h, if_false, ih, Bool.false_eq_true]
      omega

/-- Predicate selecting the cells counted by `_non_executed_cells_count`. -/
def isNonExecutedCell (c : Cell) : Bool :=
  c.cellType == CellType.code && c.executionCount == none && decide (0 < c.source.length)

/-- Predicate selecting the cells counted by `_empty_cells_count`. -/
def isEmptyCell (c : Cell) : Bool :=
  c.cellType == CellType.code && c.executionCount == none && decide (c.source.length = 0)

/-- Predicate selecting the code cells that were never executed. -/
def isNeverExecutedCodeCell (c : Cell) : Bool :=
  c.cellType == CellType.code && c.executionCount == none

/-- The non-executed-cell tally counts exactly the code cells with a null
execution count and non-empty source. -/
theorem non_executed_cells_count_eq_countP (l : List Cell) :
    non_executed_cells_count l = l.countP isNonExecutedCell := by
  have h := foldl_count_step isNonExecutedCell
    (fun n cell =>
      if cell.cellType = CellType.code then
        if cell.executionCount = none ∧ 0 < cell.source.length then n + 1 else n
      else n)
    (by
      intro n c
      by_cases hc : c.cellType = CellType.code
      · by_cases he : c.executionCount = none
        · by_cases hs : 0 < c.source.length
          · simp [isNonExecutedCell, hc, he, hs]
          · simp [isNonExecutedCell, hc, he, hs]
        · simp [isNonExecutedCell, hc, he]
      · simp [isNonExecutedCell, hc]) l 0
  simpa [non_executed_cells_count] using h

/-- The empty-cell tally counts exactly the code cells with a null
execution count and empty source. -/
theorem empty_cells_count_eq_countP (l : List Cell) :
    empty_cells_count l = l.countP isEmptyCell := by
  have h := foldl_count_step isEmptyCell
    (fun n cell =>
      if cell.cellType = CellType.code then
        if cell.executionCount = none ∧ cell.source.length = 0 then n + 1 else n
      else n)
    (by
      intro n c
      by_cases hc : c.cellType = CellType.code
      · by_cases he : c.executionCount = none
        · by_cases hs : c.source.length = 0
          · simp [isEmptyCell, hc, he, hs]
          · simp [isEmptyCell, hc, he, hs]
        · simp [isEmptyCell, hc, he]
      · simp [isEmptyCell, hc]) l 0
  simpa [empty_cells_count] using h

/-- The two predicates split the never-executed code cells. -/
theorem countP_non_executed_add_empty (l : List Cell) :
    l.countP isNonExecutedCell + l.countP isEmptyCell
      = l.countP isNeverExecutedCodeCell := by
  induction l with
  | nil => simp
  | cons c rest ih =>
    simp only [List.countP_cons]
    by_cases hc : c.cellType = CellType.code
    · by_cases he : c.executionCount = none
      · by_cases hs : c.source.length = 0
        · simp [isNonExecutedCell, isEmptyCell, isNeverExecutedCodeCell, hc, he, hs]
          omega
        · have hs' : 0 < c.source.length := Nat.pos_of_ne_zero hs
          simp [isNonExecutedCell, isEmptyCell, isNeverExecutedCodeCell, hc, he, hs, hs']
          omega
      · simp [isNonExecutedCell, isEmptyCell, isNeverExecutedCodeCell, hc, he]
        omega
    · simp [isNonExecutedCell, isEmptyCell, isNeverExecutedCodeCell, hc]
      omega

/- ## Claim theorems -/

/-- Claim C10: every code cell with a null execution count is counted by
exactly one of `count_non_executed_cells` (non-empty source) and
`count_empty_cells` (empty source); their sum equals the number of code
cells with a null execution count, and code cells with a non-null count
contribute to neither tally. -/
theorem non_executed_empty_partition :
    ∀ cells : List Cell,
      non_executed_cells_count cells = cells.countP isNonExecutedCell
      ∧ empty_cells_count cells = cells.countP isEmptyCell
      ∧ non_executed_cells_count cells + empty_cells_count cells
          = cells.countP isNeverExecutedCodeCell := by
  intro cells
  refine ⟨non_executed_cells_count_eq_countP cells, empty_cells_count_eq_countP cells, ?_⟩
  rw [non_executed_cells_count_eq_countP, empty_cells_count_eq_countP]
  exact countP_non_executed_add_empty cells

/-- Claim C9: on a notebook with zero cells every cell-based count is zero,
the execution order is linear, and for every window size the three
bottom-window rules return the not-applicable sentinel. -/
theorem empty_notebook_rules :
    ∀ (nm sc : String) (w : Nat),
      count_cells ⟨[], nm, sc⟩ = 0
      ∧ count_md_cells ⟨[], nm, sc⟩ = 0
      ∧ count_code_cells ⟨[], nm, sc⟩ = 0
      ∧ count_raw_cells ⟨[], nm, sc⟩ = 0
      ∧ count_md_lines ⟨[], nm, sc⟩ = 0
      ∧ count_md_titles ⟨[], nm, sc⟩ = 0
      ∧ count_non_executed_cells ⟨[], nm, sc⟩ = 0
      ∧ count_empty_cells ⟨[], nm, sc⟩ = 0
      ∧ has_linear_execution_order ⟨[], nm, sc⟩ = true
      ∧ count_bottom_non_executed_cells ⟨[], nm, sc⟩ w = none
      ∧ count_bottom_empty_cells ⟨[], nm, sc⟩ w = none
      ∧ get_bottom_md_lines_ratio ⟨[], nm, sc⟩ w = none := by
  intro nm sc w
  have h0 : ¬((w : ℚ) < ((0 : Nat) : ℚ) / 3) := by
    rw [Nat.cast_zero, zero_div]
    exact not_lt.mpr (Nat.cast_nonneg w)
  refine ⟨rfl, rfl, rfl, rfl, rfl, rfl, rfl, rfl, rfl, ?_, ?_, ?_⟩
  · simp only [count_bottom_non_executed_cells, List.length_nil]
    exact if_neg h0
  · simp only [count_bottom_empty_cells, List.length_nil]
    exact if_neg h0
  · simp only [get_bottom_md_lines_ratio, count_cells, List.length_nil]
    exact if_neg h0

/-- Claim C5: each bottom-window rule returns the not-applicable sentinel
exactly when the precondition `w < total_cells / 3` fails; on the nine-cell
example, window size 4 yields the sentinel and window size 2 a numeric
result. -/
theorem bottom_rules_sentinel_iff :
    (∀ (nb : Notebook) (w : Nat),
       (count_bottom_non_executed_cells nb w = none
          ↔ ¬((w : ℚ) < (count_cells nb : ℚ) / 3))
       ∧ (count_bottom_empty_cells nb w = none
          ↔ ¬((w : ℚ) < (count_cells nb : ℚ) / 3))
       ∧ (get_bottom_md_lines_ratio nb w = none
          ↔ ¬((w : ℚ) < (count_cells nb : ℚ) / 3)))
    ∧ count_bottom_non_executed_cells nbNineCells 4 = none
    ∧ count_bottom_empty_cells nbNineCells 4 = none
    ∧ get_bottom_md_lines_ratio nbNineCells 4 = none
    ∧ count_bottom_non_executed_cells nbNineCells 2 = some 0
    ∧ count_bottom_empty_cells nbNineCells 2 = some 0
    ∧ get_bottom_md_lines_ratio nbNineCells 2 = some 0 := by
  have hlen : nbNineCells.cells.length = 9 := rfl
  have h4 : ¬(((4 : Nat) : ℚ) < ((9 : Nat) : ℚ) / 3) := by norm_num
  have h2 : (((2 : Nat) : ℚ) < ((9 : Nat) : ℚ) / 3) := by norm_num
  refine ⟨?_, ?_, ?_, ?_, ?_, ?_, ?_⟩
  case refine_2 =>
    simp only [count_bottom_non_executed_cells, hlen]
    exact if_neg h4
  case refine_3 =>
    simp only [count_bottom_empty_cells, hlen]
    exact if_neg h4
  case refine_4 =>
    simp only [get_bottom_md_lines_ratio, count_cells, hlen]
    exact if_neg h4
  case refine_5 =>
    simp only [count_bottom_non_executed_cells, hlen]
    rw [if_pos h2]
    rfl
  case refine_6 =>
    simp only [count_bottom_empty_cells, hlen]
    rw [if_pos h2]
    rfl
  case refine_7 =>
    simp only [get_bottom_md_lines_ratio, count_cells, hlen]
    rw [if_pos h2]
    rfl
  intro nb w
  by_cases h : (w : ℚ) < (count_cells nb : ℚ) / 3
  · have h' : (w : ℚ) < ((nb.cells.length : Nat) : ℚ) / 3 := h
    refine ⟨?_, ?_, ?_⟩
    · simp [count_bottom_non_executed_cells, h', h]
    · simp [count_bottom_empty_cells, h', h]
    · simp [get_bottom_md_lines_ratio, h]
  · have h' : ¬((w : ℚ) < ((nb.cells.length : Nat) : ℚ) / 3) := h
    refine ⟨?_, ?_, ?_⟩
    · simp [count_bottom_non_executed_cells, h', h]
    · simp [count_bottom_empty_cells, h', h]
    · simp [get_bottom_md_lines_ratio, h]

/-- A scan that started in the failed state stays failed: the loop of
`has_linear_execution_order` never sets the result back to true. -/
theorem hleo_foldl_false : ∀ (l : List Cell) (k : Int),
    (l.foldl hleoStep (false, k)).1 = false := by
  intro l
  induction l with
  | nil => intro k; rfl
  | cons c rest ih =>
    intro k
    rw [List.foldl_cons]
    by_cases hc : c.cellType = CellType.code
    · by_cases he : c.executionCount = some k
      · simpa [hleoStep, hc, he] using ih (k + 1)
      · by_cases hs : c.source = ""
        · simpa [hleoStep, hc, he, hs] using ih k
        · simpa [hleoStep, hc, he, hs] using ih k
    · simpa [hleoStep, hc] using ih k

/-- The counter component of the scan agrees with the expected-counter
recursion, whatever the boolean component is. -/
theorem hleo_foldl_snd : ∀ (l : List Cell) (b : Bool) (k : Int),
    (l.foldl hleoStep (b, k)).2 = execCounterAfter k l := by
  intro l
  induction l with
  | nil => intro b k; rfl
  | cons c rest ih =>
    intro b k
    rw [List.foldl_cons, execCounterAfter, List.foldl_cons]
    by_cases hc : c.cellType = CellType.code
    · by_cases he : c.executionCount = some k
      · simpa [hleoStep, execNext, hc, he] using ih b (k + 1)
      · by_cases hs : c.source = ""
        · simpa [hleoStep, execNext, hc, he, hs] using ih b k
        · simpa [hleoStep, execNext, hc, he, hs] using ih false k
    · simpa [hleoStep, execNext, hc] using ih b k

/-- Characterization of the execution-order scan: starting from state
`(b, k)`, the final boolean is true exactly when the scan started true and
every code cell with non-empty source carries the expected counter value at
its position. -/
theorem hleo_foldl_char : ∀ (l : List Cell) (b : Bool) (k : Int),
    (l.foldl hleoStep (b, k)).1 = true ↔
      (b = true ∧ ∀ i (h : i < l.length),
        (l.get ⟨i, h⟩).cellType = CellType.code →
        (l.get ⟨i, h⟩).source ≠ "" →
        (l.get ⟨i, h⟩).executionCount = some (execCounterAfter k (l.take i))) := by
  intro l
  induction l with
  | nil =>
    intro b k
    simp
  | cons c rest ih =>
    intro b k
    rw [List.foldl_cons]
    constructor
    · intro hres
      by_cases hc : c.cellType = CellType.code
      · by_cases he : c.executionCount = some k
        · rw [hleoStep, if_pos hc, if_pos he] at hres
          obtain ⟨hb, hall⟩ := (ih b (k + 1)).mp hres
          refine ⟨hb, ?_⟩
          intro i hi
          match i with
          | 0 =>
            intro _ _
            simpa [execCounterAfter] using he
          | Nat.succ j =>
            intro hcode hsrc
            have hj : j < rest.length := by simpa using hi
            have := hall j hj (by simpa using hcode) (by simpa using hsrc)
            simpa [execCounterAfter, execNext, hc, he] using this
        · by_cases hs : c.source = ""
          · rw [hleoStep, if_pos hc, if_neg he, if_pos hs] at hres
            obtain ⟨hb, hall⟩ := (ih b k).mp hres
            refine ⟨hb, ?_⟩
            intro i hi
            match i with
            | 0 =>
              intro _ hsrc
              exact absurd hs hsrc
            | Nat.succ j =>
              intro hcode hsrc
              have hj : j < rest.length := by simpa using hi
              have := hall j hj (by simpa using hcode) (by simpa using hsrc)
              simpa [execCounterAfter, execNext, hc, he] using this
          · rw [hleoStep, if_pos hc, if_neg he, if_neg hs] at hres
            rw [hleo_foldl_false] at hres
            exact absurd hres (by simp)
      · rw [hleoStep, if_neg hc] at hres
        obtain ⟨hb, hall⟩ := (ih b k).mp hres
        refine ⟨hb, ?_⟩
        intro i hi
        match i with
        | 0 =>
          intro hcode _
          exact absurd hcode hc
        | Nat.succ j =>
          intro hcode hsrc
          have hj : j < rest.length := by simpa using hi
          have := hall j hj (by simpa using hcode) (by simpa using hsrc)
          simpa [execCounterAfter, execNext, hc] using this
    · rintro ⟨hb, hall⟩
      by_cases hc : c.cellType = CellType.code
      · by_cases he : c.executionCount = some k
        · rw [hleoStep, if_pos hc, if_pos he]
          refine (ih b (k + 1)).mpr ⟨hb, ?_⟩
          intro j hj hcode hsrc
          have hj' : Nat.succ j < (c :: rest).length := by simpa using hj
          have := hall (Nat.succ j) hj' (by simpa using hcode) (by simpa using hsrc)
          simpa [execCounterAfter, execNext, hc, he] using this
        · by_cases hs : c.source = ""
          · rw [hleoStep, if_pos hc, if_neg he, if_pos hs]
            refine (ih b k).mpr ⟨hb, ?_⟩
            intro j hj hcode hsrc
            have hj' : Nat.succ j < (c :: rest).length := by simpa using hj
            have := hall (Nat.succ j) hj' (by simpa using hcode) (by simpa using hsrc)
            simpa [execCounterAfter, execNext, hc, he] using this
          · exfalso
            have h0 : (0 : Nat) < (c :: rest).length := by simp
            have := hall 0 h0 (by simpa using hc) (by simpa using hs)
            simp only [List.get] at this
            rw [List.take_zero] at this
            exact he (by simpa [execCounterAfter] using this)
      · rw [hleoStep, if_neg hc]
        refine (ih b k).mpr ⟨hb, ?_⟩
        intro j hj hcode hsrc
        have hj' : Nat.succ j < (c :: rest).length := by simpa using hj
        have := hall (Nat.succ j) hj' (by simpa using hcode) (by simpa using hsrc)
        simpa [execCounterAfter, execNext, hc] using this

/-- Claim C4: `has_linear_execution_order` is true exactly when, scanning
code cells in document order with an expected counter starting at 1 that
advances exactly on a match and is never reset or advanced on a mismatch,
no code cell with non-empty source carries an execution count different
from the expected value at its position; in particular counts 1, 2, 3 in
order yield true and counts 1, 3, 2 with the mismatching cells non-empty
yield false. -/
theorem linear_execution_order_characterization :
    (∀ nb : Notebook,
      has_linear_execution_order nb = true ↔
        ∀ i (h : i < nb.cells.length),
          (nb.cells.get ⟨i, h⟩).cellType = CellType.code →
          (nb.cells.get ⟨i, h⟩).source ≠ "" →
          (nb.cells.get ⟨i, h⟩).executionCount
            = some (execCounterAfter 1 (nb.cells.take i)))
    ∧ has_linear_execution_order nbExecOrdered = true
    ∧ has_linear_execution_order nbExecSwapped = false := by
  refine ⟨?_, by decide, by decide⟩
  intro nb
  rw [has_linear_execution_order, hleo_foldl_char]
  simp

/-- The window-extraction loop keeps the first `bottomSize + 1 - counter`
code cells of the list it scans, in scan order. -/
theorem extractLoop_eq (bottomSize : Nat) :
    ∀ (l : List Cell) (counter : Nat),
      extractLoop bottomSize l counter
        = (l.filter (fun c => c.cellType == CellType.code)).take
            (bottomSize + 1 - counter) := by
  intro l
  induction l with
  | nil => intro counter; simp [extractLoop]
  | cons c rest ih =>
    intro counter
    by_cases hcnt : counter ≤ bottomSize
    · by_cases hc : c.cellType = CellType.code
      · have hsub : bottomSize + 1 - counter = (bottomSize + 1 - (counter + 1)) + 1 := by
          omega
        rw [extractLoop, if_pos hcnt, if_pos hc, ih (counter + 1)]
        simp only [List.filter_cons]
        rw [hsub]
        simp [hc]
      · rw [extractLoop, if_pos hcnt, if_neg hc, ih counter]
        simp only [List.filter_cons]
        simp [hc]
    · have hsub : bottomSize + 1 - counter = 0 := by omega
      rw [extractLoop, if_neg hcnt, hsub, List.take_zero]

/-- The extracted bottom window is the reversal of the last `bottomSize`
code cells of the document (all of them when fewer exist). -/
theorem extract_bottom_eq_last_code_cells (cells : List Cell) (bottomSize : Nat) :
    extract_bottom_cells_of_code cells bottomSize
      = ((cells.filter (fun c => c.cellType == CellType.code)).drop
          ((cells.filter (fun c => c.cellType == CellType.code)).length - bottomSize)).reverse := by
  rw [extract_bottom_cells_of_code, extractLoop_eq]
  simp only [Nat.add_sub_cancel]
  rw [List.filter_reverse, List.take_reverse]

/-- Claim C6: under the window precondition, the cell window used by the two
bottom counting rules consists of exactly the last `w` code cells of the
document (all of its code cells when fewer than `w` exist), markdown and
raw cells being skipped without consuming window budget; the rules count
over exactly this window. -/
theorem bottom_window_is_last_code_cells :
    ∀ (nb : Notebook) (w : Nat), ((w : ℚ) < (count_cells nb : ℚ) / 3) →
      (extract_bottom_cells_of_code nb.cells w
        = ((nb.cells.filter (fun c => c.cellType == CellType.code)).drop
            ((nb.cells.filter (fun c => c.cellType == CellType.code)).length - w)).reverse)
      ∧ count_bottom_non_executed_cells nb w
          = some (non_executed_cells_count (extract_bottom_cells_of_code nb.cells w))
      ∧ count_bottom_empty_cells nb w
          = some (empty_cells_count (extract_bottom_cells_of_code nb.cells w)) := by
  intro nb w h
  have h' : (w : ℚ) < ((nb.cells.length : Nat) : ℚ) / 3 := h
  refine ⟨extract_bottom_eq_last_code_cells nb.cells w, ?_, ?_⟩
  · rw [count_bottom_non_executed_cells, if_pos h']
  · rw [count_bottom_empty_cells, if_pos h']

/-- Concrete instance of the bottom-window theorem: on the seven-cell mixed
notebook with window size 2, the window is the reversal of its last two
code cells and the bottom counting rules count over it. -/
theorem bottom_window_is_last_code_cells_witness :
    extract_bottom_cells_of_code nbWindowMix.cells 2
      = ((nbWindowMix.cells.filter (fun c => c.cellType == CellType.code)).drop
          ((nbWindowMix.cells.filter (fun c => c.cellType == CellType.code)).length - 2)).reverse
    ∧ count_bottom_non_executed_cells nbWindowMix 2
        = some (non_executed_cells_count (extract_bottom_cells_of_code nbWindowMix.cells 2))
    ∧ count_bottom_empty_cells nbWindowMix 2
        = some (empty_cells_count (extract_bottom_cells_of_code nbWindowMix.cells 2)) :=
  bottom_window_is_last_code_cells nbWindowMix 2 (by norm_num [nbWindowMix, count_cells])

/-- Markdown line count distributes over list concatenation. -/
theorem mdSourceLines_append (l₁ l₂ : List Cell) :
    mdSourceLines (l₁ ++ l₂) = mdSourceLines l₁ + mdSourceLines l₂ := by
  induction l₁ with
  | nil => simp [mdSourceLines]
  | cons c rest ih => simp [mdSourceLines, ih]; omega

/-- The position-counter loop of the markdown-ratio rule splits the
markdown lines of the list at the threshold position: the cells at
positions up to `threshold` (counting from the starting counter value) land
in the first bucket and the rest in the bottom bucket. -/
theorem gbmlrLoop_eq (threshold : Nat) :
    ∀ (l : List Cell) (f b c : Nat),
      gbmlrLoop threshold l f b c
        = (f + mdSourceLines (l.take (threshold + 1 - c)),
           b + mdSourceLines (l.drop (threshold + 1 - c))) := by
  intro l
  induction l with
  | nil => intro f b c; simp [gbmlrLoop, mdSourceLines]
  | cons x rest ih =>
    intro f b c
    by_cases hc : c ≤ threshold
    · have hsub : threshold + 1 - c = (threshold + 1 - (c + 1)) + 1 := by omega
      by_cases hmd : x.cellType = CellType.markdown
      · rw [gbmlrLoop, if_pos ⟨hc, hmd⟩, ih, hsub]
        simp only [List.take_succ_cons, List.drop_succ_cons]
        simp [mdSourceLines, hmd]
        omega
      · have h1 : ¬(c ≤ threshold ∧ x.cellType = CellType.markdown) := by
          intro h
          exact hmd h.2
        have h2 : ¬(threshold < c ∧ x.cellType = CellType.markdown) := by
          intro h
          exact hmd h.2
        rw [gbmlrLoop, if_neg h1, if_neg h2, ih, hsub]
        simp only [List.take_succ_cons, List.drop_succ_cons]
        simp [mdSourceLines, hmd]
    · have hlt : threshold < c := by omega
      have hsub : threshold + 1 - c = 0 := by omega
      have hsub' : threshold + 1 - (c + 1) = 0 := by omega
      have h1 : ¬(c ≤ threshold ∧ x.cellType = CellType.markdown) := by
        intro h
        exact hc h.1
      by_cases hmd : x.cellType = CellType.markdown
      · rw [gbmlrLoop, if_neg h1, if_pos ⟨hlt, hmd⟩, ih, hsub, hsub']
        simp only [List.take_zero, List.drop_zero]
        simp [mdSourceLines, hmd]
        omega
      · have h2 : ¬(threshold < c ∧ x.cellType = CellType.markdown) := by
          intro h
          exact hmd h.2
        rw [gbmlrLoop, if_neg h1, if_neg h2, ih, hsub, hsub']
        simp only [List.take_zero, List.drop_zero]
        simp [mdSourceLines, hmd]

/-- The stored ratio value is always between zero and one. -/
theorem mdRatioValue_bounds (p : Nat × Nat) :
    0 ≤ mdRatioValue p ∧ mdRatioValue p ≤ 1 := by
  rw [mdRatioValue]
  by_cases h : p.1 + p.2 = 0
  · rw [if_pos h]
    norm_num
  · rw [if_neg h]
    have hpos : (0 : ℚ) < (p.1 : ℚ) + (p.2 : ℚ) := by
      have : 0 < p.1 + p.2 := Nat.pos_of_ne_zero h
      exact_mod_cast this
    constructor
    · positivity
    · rw [div_le_one hpos]
      have : (0 : ℚ) ≤ (p.1 : ℚ) := Nat.cast_nonneg p.1
      linarith

/-- Claim C7 counterexample: on the nine-cell notebook whose single
markdown cell sits at position 5, with window size 2, the code returns 0
(the markdown cell lies in the code's leading section, positions 1 to 7)
while the ratio described by the claim — trailing section equal to the last
`total_cells - w` positions, here positions 3 to 9 — is 1. -/
theorem bottom_md_ratio_counterexample :
    get_bottom_md_lines_ratio nbNineCellsMidMd 2 = some 0
    ∧ bottomMdRatioSpecC7 nbNineCellsMidMd 2 = some 1
    ∧ get_bottom_md_lines_ratio nbNineCellsMidMd 2
        ≠ bottomMdRatioSpecC7 nbNineCellsMidMd 2 := by
  have hlen : count_cells nbNineCellsMidMd = 9 := rfl
  have hpre : ((2 : Nat) : ℚ) < ((9 : Nat) : ℚ) / 3 := by norm_num
  have h1 : get_bottom_md_lines_ratio nbNineCellsMidMd 2 = some 0 := by
    rw [get_bottom_md_lines_ratio, hlen, if_pos hpre]
    have hloop : gbmlrLoop (9 - 2) nbNineCellsMidMd.cells 0 0 1 = (1, 0) := by decide
    rw [hloop, mdRatioValue]
    norm_num
  have h2 : bottomMdRatioSpecC7 nbNineCellsMidMd 2 = some 1 := by
    rw [bottomMdRatioSpecC7, hlen]
    rw [if_pos hpre]
    have hbot : mdSourceLines (nbNineCellsMidMd.cells.drop 2) = 1 := by decide
    have htop : mdSourceLines (nbNineCellsMidMd.cells.take 2) = 0 := by decide
    rw [hbot, htop]
    norm_num
  refine ⟨h1, h2, ?_⟩
  rw [h1, h2]
  intro h
  have := Option.some.inj h
  norm_num at this

/-- Claim C7 as amended: under the precondition, the markdown-distribution
rule reports `bottom_lines / (bottom_lines + top_lines)` where
`bottom_lines` counts the markdown source lines in the last `w` cell
positions (not the last `total_cells - w` the claim stated) and
`top_lines` those in the first `total_cells - w` positions; the result is 0
when both counts are 0 and always lies in the closed interval from 0 to
1. -/
theorem bottom_md_ratio_amended :
    ∀ (nb : Notebook) (w : Nat), ((w : ℚ) < (count_cells nb : ℚ) / 3) →
      get_bottom_md_lines_ratio nb w
        = some (if mdSourceLines (nb.cells.drop (nb.cells.length - w))
                    + mdSourceLines (nb.cells.take (nb.cells.length - w)) = 0 then 0
                else (mdSourceLines (nb.cells.drop (nb.cells.length - w)) : ℚ)
                    / ((mdSourceLines (nb.cells.drop (nb.cells.length - w)) : ℚ)
                        + (mdSourceLines (nb.cells.take (nb.cells.length - w)) : ℚ)))
      ∧ (∀ r, get_bottom_md_lines_ratio nb w = some r → 0 ≤ r ∧ r ≤ 1) := by
  intro nb w h
  have hval : get_bottom_md_lines_ratio nb w
      = some (mdRatioValue (mdSourceLines (nb.cells.take (nb.cells.length - w)),
                            mdSourceLines (nb.cells.drop (nb.cells.length - w)))) := by
    rw [get_bottom_md_lines_ratio, if_pos h, gbmlrLoop_eq]
    rw [Nat.add_sub_cancel]
    rw [count_cells]
    simp
  constructor
  · rw [hval, mdRatioValue]
    by_cases hz : mdSourceLines (nb.cells.take (nb.cells.length - w))
        + mdSourceLines (nb.cells.drop (nb.cells.length - w)) = 0
    · rw [if_pos hz, if_pos (by omega)]
    · rw [if_neg hz, if_neg (by omega)]
      rw [add_comm ((mdSourceLines (nb.cells.drop (nb.cells.length - w)) : ℚ))]
  · intro r hr
    rw [hval] at hr
    have := Option.some.inj hr
    rw [← this]
    exact mdRatioValue_bounds _

/-- Concrete instance of the amended markdown-ratio theorem on the
nine-cell notebook with window size 2. -/
theorem bottom_md_ratio_amended_witness :
    get_bottom_md_lines_ratio nbNineCellsMidMd 2
      = some (if mdSourceLines (nbNineCellsMidMd.cells.drop (nbNineCellsMidMd.cells.length - 2))
                  + mdSourceLines (nbNineCellsMidMd.cells.take (nbNineCellsMidMd.cells.length - 2)) = 0
              then 0
              else (mdSourceLines (nbNineCellsMidMd.cells.drop (nbNineCellsMidMd.cells.length - 2)) : ℚ)
                  / ((mdSourceLines (nbNineCellsMidMd.cells.drop (nbNineCellsMidMd.cells.length - 2)) : ℚ)
                      + (mdSourceLines (nbNineCellsMidMd.cells.take (nbNineCellsMidMd.cells.length - 2)) : ℚ)))
    ∧ (∀ r, get_bottom_md_lines_ratio nbNineCellsMidMd 2 = some r → 0 ≤ r ∧ r ≤ 1) :=
  bottom_md_ratio_amended nbNineCellsMidMd 2 (by norm_num [nbNineCellsMidMd, count_cells])

/-- Before the first marker is found, non-marker lines are skipped without
changing the scan state. -/
theorem aiifcLoop_skip_preamble (parse : PyParse) :
    ∀ (pre : List String), (∀ l ∈ pre, isCellMarker l = false) →
      ∀ (rest : List String) (b2 : Bool) (buf : String) (corr : Bool),
        aiifcLoop parse (pre ++ rest) false b2 buf corr
          = aiifcLoop parse rest false b2 buf corr := by
  intro pre
  induction pre with
  | nil => intro _ rest b2 buf corr; rfl
  | cons l pre' ih =>
    intro hpre rest b2 buf corr
    have hl : isCellMarker l = false := hpre l (List.mem_cons_self l pre')
    have hpre' : ∀ x ∈ pre', isCellMarker x = false := by
      intro x hx
      exact hpre x (List.mem_cons_of_mem l hx)
    rw [List.cons_append, aiifcLoop]
    simp only [Bool.not_false, if_true, hl, Bool.false_eq_true, if_false]
    exact ih hpre' rest b2 buf corr

/-- A marker line seen before the first cell switches the scan into the
first cell. -/
theorem aiifcLoop_marker_found (parse : PyParse) (m : String)
    (hm : isCellMarker m = true) (rest : List String) (b2 : Bool)
    (buf : String) (corr : Bool) :
    aiifcLoop parse (m :: rest) false b2 buf corr
      = aiifcLoop parse rest true b2 buf corr := by
  rw [aiifcLoop]
  simp [hm]

/-- Inside the exempt first cell, non-marker lines are skipped without
being accumulated. -/
theorem aiifcLoop_skip_firstcell (parse : PyParse) :
    ∀ (c1 : List String), (∀ l ∈ c1, isCellMarker l = false) →
      ∀ (rest : List String) (buf : String) (corr : Bool),
        aiifcLoop parse (c1 ++ rest) true true buf corr
          = aiifcLoop parse rest true true buf corr := by
  intro c1
  induction c1 with
  | nil => intro _ rest buf corr; rfl
  | cons l c1' ih =>
    intro hc1 rest buf corr
    have hl : isCellMarker l = false := hc1 l (List.mem_cons_self l c1')
    have hc1' : ∀ x ∈ c1', isCellMarker x = false := by
      intro x hx
      exact hc1 x (List.mem_cons_of_mem l hx)
    rw [List.cons_append, aiifcLoop]
    simp only [Bool.not_true, Bool.false_eq_true, if_false, hl]
    exact ih hc1' rest buf corr

/-- The second marker ends the exempt first cell: from here on lines are
accumulated and checked. -/
theorem aiifcLoop_second_marker (parse : PyParse) (m : String)
    (hm : isCellMarker m = true) (rest : List String) (buf : String)
    (corr : Bool) :
    aiifcLoop parse (m :: rest) true true buf corr
      = aiifcLoop parse rest true false buf corr := by
  rw [aiifcLoop]
  simp [hm]

/-- A non-marker line in the checking phase is appended to the buffer. -/
theorem aiifcLoop_accumulate (parse : PyParse) (l : String) (rest : List String)
    (buf : String) (corr : Bool) (hl : isCellMarker l = false) :
    aiifcLoop parse (l :: rest) true false buf corr
      = aiifcLoop parse rest true false (buf ++ "\n" ++ l) corr := by
  rw [aiifcLoop]
  simp [hl]

/-- When every closed cell buffer parses without an import, the checking
phase of the scan runs to completion and returns the current result. -/
theorem aiifcLoop_no_import (parse : PyParse) :
    ∀ (tail : List String) (buf : String) (corr : Bool),
      buffersParseNoImport parse tail buf = true →
      aiifcLoop parse tail true false buf corr = Except.ok corr := by
  intro tail
  induction tail with
  | nil => intro buf corr _; rfl
  | cons l rest ih =>
    intro buf corr hbuf
    by_cases hm : isCellMarker l = true
    · rw [buffersParseNoImport, if_pos hm, Bool.and_eq_true] at hbuf
      obtain ⟨hhead, htail⟩ := hbuf
      rw [aiifcLoop]
      simp only [Bool.not_true, Bool.false_eq_true, if_false, hm, Bool.not_false, if_true]
      cases hp : parse buf with
      | error e =>
        rw [hp] at hhead
        simp at hhead
      | ok body =>
        rw [hp] at hhead
        simp only [decide_eq_true_eq] at hhead
        show (if 0 < List.countP (fun s => isImport s) body then Except.ok false
              else aiifcLoop parse rest true false buf corr) = Except.ok corr
        rw [if_neg (by omega)]
        exact ih buf corr htail
    · have hm' : isCellMarker l = false := by
        simpa using hm
      rw [buffersParseNoImport, if_neg (by simp [hm'])] at hbuf
      rw [aiifcLoop_accumulate parse l rest buf corr hm']
      exact ih (buf ++ "\n" ++ l) corr hbuf

/-- When some closed cell buffer beyond the first cell parses to a body
containing an import (all earlier closed buffers parsing without one), the
checking phase of the scan stops and reports a violation. -/
theorem aiifcLoop_hit_import (parse : PyParse) :
    ∀ (tail : List String) (buf : String) (corr : Bool),
      buffersHitImport parse tail buf = true →
      aiifcLoop parse tail true false buf corr = Except.ok false := by
  intro tail
  induction tail with
  | nil =>
    intro buf corr h
    rw [buffersHitImport] at h
    simp at h
  | cons l rest ih =>
    intro buf corr hbuf
    by_cases hm : isCellMarker l = true
    · rw [buffersHitImport, if_pos hm] at hbuf
      rw [aiifcLoop]
      simp only [Bool.not_true, Bool.false_eq_true, if_false, hm, Bool.not_false, if_true]
      cases hp : parse buf with
      | error e =>
        rw [hp] at hbuf
        simp at hbuf
      | ok body =>
        rw [hp] at hbuf
        have hbuf' : (if 0 < List.countP (fun s => isImport s) body then true
            else buffersHitImport parse rest buf) = true := hbuf
        show (if 0 < List.countP (fun s => isImport s) body then Except.ok false
              else aiifcLoop parse rest true false buf corr) = Except.ok false
        by_cases himp : 0 < List.countP (fun s => isImport s) body
        · rw [if_pos himp]
        · rw [if_neg himp] at hbuf'
          rw [if_neg himp]
          exact ih buf corr hbuf'
    · have hm' : isCellMarker l = false := by
        simpa using hm
      rw [buffersHitImport, if_neg (by simp [hm'])] at hbuf
      rw [aiifcLoop_accumulate parse l rest buf corr hm']
      exact ih (buf ++ "\n" ++ l) corr hbuf

/-- A scan that never sees a marker stays in the preamble-skipping state
and ends with the current result. -/
theorem aiifcLoop_all_nonmarker (parse : PyParse) :
    ∀ (ls : List String), (∀ l ∈ ls, isCellMarker l = false) →
      ∀ (b2 : Bool) (buf : String) (corr : Bool),
        aiifcLoop parse ls false b2 buf corr = Except.ok corr := by
  intro ls
  induction ls with
  | nil => intro _ b2 buf corr; rfl
  | cons l rest ih =>
    intro hls b2 buf corr
    have hl : isCellMarker l = false := hls l (List.mem_cons_self l rest)
    have hrest : ∀ x ∈ rest, isCellMarker x = false := by
      intro x hx
      exact hls x (List.mem_cons_of_mem l hx)
    rw [aiifcLoop]
    simp only [Bool.not_false, if_true, hl, Bool.false_eq_true, if_false]
    exact ih hrest b2 buf corr

/-- Claim C2 counterexample: in the reconstructed program below, the second
cell, the content after the second boundary marker, is the single line
bringing in a module, and the oracle confirms its buffer parses to a
top-level import; yet, because no further marker follows that cell, the
rule reports no violation and returns true rather than the false the claim
requires. -/
theorem second_cell_import_unclosed_counterexample :
    pySplitLines nbSecondCellImportUnclosed.script
        = ["# In[1]:", "x = 1", "# In[2]:", "import os"]
    ∧ miniPyParse (extendBuf ("") ["import os"]) = Except.ok [PyStmt.importStmt]
    ∧ are_imports_in_first_cell miniPyParse nbSecondCellImportUnclosed
        = Except.ok true := by
  refine ⟨by decide, by decide, by decide⟩

/-- Claim C2 as amended: an import in a cell beyond the first is detected
exactly when that cell is closed by a later boundary marker.  Whenever the
reconstructed program decomposes into a preamble without markers, a first
marker, a marker-free first cell, a second marker, and a tail in which the
buffer accumulated at some further marker parses to a body containing a
top-level import (every buffer closed before it parsing without one), the
rule returns false.  In particular a program whose second cell contains
an import and is followed by another marker yields false; the final, unclosed
cell of a program is never checked. -/
theorem closed_cell_import_detected :
    ∀ (parse : PyParse) (nb : Notebook) (pre c1 tail : List String) (m1 m2 : String),
      pySplitLines nb.script = pre ++ m1 :: (c1 ++ m2 :: tail) →
      (∀ l ∈ pre, isCellMarker l = false) →
      isCellMarker m1 = true →
      (∀ l ∈ c1, isCellMarker l = false) →
      isCellMarker m2 = true →
      buffersHitImport parse tail ("") = true →
      are_imports_in_first_cell parse nb = Except.ok false := by
  intro parse nb pre c1 tail m1 m2 hsplit hpre hm1 hc1 hm2 hhit
  rw [are_imports_in_first_cell, hsplit]
  rw [aiifcLoop_skip_preamble parse pre hpre]
  rw [aiifcLoop_marker_found parse m1 hm1]
  rw [aiifcLoop_skip_firstcell parse c1 hc1]
  rw [aiifcLoop_second_marker parse m2 hm2]
  exact aiifcLoop_hit_import parse tail ("") true hhit

/-- Concrete instance of the amended import-placement theorem: the program
whose second cell contains an import and is closed by a third marker is
reported as a violation. -/
theorem closed_cell_import_detected_witness :
    are_imports_in_first_cell miniPyParse nbSecondCellImportClosed
      = Except.ok false :=
  closed_cell_import_detected miniPyParse nbSecondCellImportClosed
    [] ["x = 1"] ["import os", "# In[3]:", "pass"] ("# In[1]:") ("# In[2]:")
    (by decide) (by decide) (by decide) (by decide) (by decide) (by decide)

/-- Claim C3: the rule returns true for every reconstructed program with no
boundary marker at all; for every program with exactly one boundary marker
(whatever the preamble and the never-closed first cell contain, imports
included); and for every program with two or more markers in which, past
the second marker, each closed cell buffer parses and contains no
top-level import — in particular when all imports sit in the preamble
(never scanned) or in the first closed cell (exempt by design). -/
theorem first_cell_import_exemption :
    (∀ (parse : PyParse) (nb : Notebook),
        (∀ l ∈ pySplitLines nb.script, isCellMarker l = false) →
        are_imports_in_first_cell parse nb = Except.ok true)
    ∧ (∀ (parse : PyParse) (nb : Notebook) (pre c1 : List String) (m1 : String),
        pySplitLines nb.script = pre ++ m1 :: c1 →
        (∀ l ∈ pre, isCellMarker l = false) →
        isCellMarker m1 = true →
        (∀ l ∈ c1, isCellMarker l = false) →
        are_imports_in_first_cell parse nb = Except.ok true)
    ∧ (∀ (parse : PyParse) (nb : Notebook) (pre c1 tail : List String) (m1 m2 : String),
        pySplitLines nb.script = pre ++ m1 :: (c1 ++ m2 :: tail) →
        (∀ l ∈ pre, isCellMarker l = false) →
        isCellMarker m1 = true →
        (∀ l ∈ c1, isCellMarker l = false) →
        isCellMarker m2 = true →
        buffersParseNoImport parse tail ("") = true →
        are_imports_in_first_cell parse nb = Except.ok true) := by
  refine ⟨?_, ?_, ?_⟩
  · intro parse nb hnone
    rw [are_imports_in_first_cell]
    exact aiifcLoop_all_nonmarker parse (pySplitLines nb.script) hnone true ("") true
  · intro parse nb pre c1 m1 hsplit hpre hm1 hc1
    rw [are_imports_in_first_cell, hsplit]
    rw [aiifcLoop_skip_preamble parse pre hpre]
    rw [aiifcLoop_marker_found parse m1 hm1]
    rw [show c1 = c1 ++ [] from (List.append_nil c1).symm]
    rw [aiifcLoop_skip_firstcell parse c1 hc1]
    rfl
  · intro parse nb pre c1 tail m1 m2 hsplit hpre hm1 hc1 hm2 hnoimp
    rw [are_imports_in_first_cell, hsplit]
    rw [aiifcLoop_skip_preamble parse pre hpre]
    rw [aiifcLoop_marker_found parse m1 hm1]
    rw [aiifcLoop_skip_firstcell parse c1 hc1]
    rw [aiifcLoop_second_marker parse m2 hm2]
    exact aiifcLoop_no_import parse tail ("") true hnoimp

/-- Concrete instances of the import-placement exemption theorem: a program
without markers, a single-marker program whose only (first, never closed)
cell contains an import, and a three-cell program whose only import sits in
the first closed cell, are all accepted. -/
theorem first_cell_import_exemption_witness :
    are_imports_in_first_cell miniPyParse nbEmptyCells = Except.ok true
    ∧ are_imports_in_first_cell miniPyParse nbSingleCellImport = Except.ok true
    ∧ are_imports_in_first_cell miniPyParse nbImportFirstCellOnly = Except.ok true :=
  ⟨first_cell_import_exemption.1 miniPyParse nbEmptyCells (by decide),
   first_cell_import_exemption.2.1 miniPyParse nbSingleCellImport
     [] ["import os"] ("# In[1]:")
     (by decide) (by decide) (by decide) (by decide),
   first_cell_import_exemption.2.2 miniPyParse nbImportFirstCellOnly
     [] ["import os"] ["x = 1", "# In[3]:", "pass"] ("# In[1]:") ("# In[2]:")
     (by decide) (by decide) (by decide) (by decide) (by decide) (by decide)⟩

/-- Claim C1: when the reconstructed program does not parse, building the
linting results raises the error out of the constructor, so no report is
produced at all — not even entries for the rules that need no parsing. -/
theorem unparsable_script_aborts_report :
    ∀ (parse : PyParse) (nb : Notebook),
      parse nb.script = Except.error () →
      notebookLinterResults parse nb = Except.error () := by
  intro parse nb h
  simp only [notebookLinterResults, count_class_defs, h]
  rfl

/-- Concrete instance of the aborted-report theorem: with a failing parse,
no report is produced. -/
theorem unparsable_script_aborts_report_witness :
    notebookLinterResults failPyParse nbSecondCellImportClosed = Except.error () :=
  unparsable_script_aborts_report failPyParse nbSecondCellImportClosed rfl

/-- Claim C8 counterexample: the analysis of the empty notebook completes
and its report carries the seventeen fixed keys, but the filename-charset
rule is stored under the key isFilenameCharsetRestr, so the key
isFilenameCharsetRestricted named by the claim is absent. -/
theorem report_key_name_counterexample :
    reportKeys (notebookLinterResults miniPyParse nbEmptyCells)
        = ["numberOfCells", "numberOfMDCells", "numberOfCodeCells", "numberOfRawCells",
           "linearExecutionOrder", "numberOfClassDefinitions",
           "numberOfFunctionDefinitions", "allImportsInFirstCell",
           "numberOfMarkdownLines", "numberOfMarkdownTitles",
           "bottomMarkdownLinesRatio", "nonExecutedCells", "emptyCells",
           "bottomNonExecutedCells", "bottomEmptyCells", "isTitled",
           "isFilenameCharsetRestr"]
    ∧ ¬("isFilenameCharsetRestricted"
        ∈ reportKeys (notebookLinterResults miniPyParse nbEmptyCells)) := by
  refine ⟨by decide, by decide⟩

/-- Claim C8 as amended: whenever the analysis completes, the report holds
exactly one entry per fixed key, the four statistics keys in
`notebookStats` and the thirteen rule keys in `lintingResults`, the last of
them named isFilenameCharsetRestr (not isFilenameCharsetRestricted as the
claim stated); when the default window precondition fails, the three
bottom-window rules contribute the not-applicable sentinel under their keys
rather than omitting them. -/
theorem report_fixed_keys :
    ∀ (parse : PyParse) (nb : Notebook) (r : LintResults),
      notebookLinterResults parse nb = Except.ok r →
      r.notebookStats.map Prod.fst
          = ["numberOfCells", "numberOfMDCells", "numberOfCodeCells", "numberOfRawCells"]
      ∧ r.lintingResults.map Prod.fst
          = ["linearExecutionOrder", "numberOfClassDefinitions",
             "numberOfFunctionDefinitions", "allImportsInFirstCell",
             "numberOfMarkdownLines", "numberOfMarkdownTitles",
             "bottomMarkdownLinesRatio", "nonExecutedCells", "emptyCells",
             "bottomNonExecutedCells", "bottomEmptyCells", "isTitled",
             "isFilenameCharsetRestr"]
      ∧ (¬(((4 : Nat) : ℚ) < (count_cells nb : ℚ) / 3) →
          ("bottomMarkdownLinesRatio", LintValue.na) ∈ r.lintingResults
          ∧ ("bottomNonExecutedCells", LintValue.na) ∈ r.lintingResults
          ∧ ("bottomEmptyCells", LintValue.na) ∈ r.lintingResults) := by
  intro parse nb r h
  cases hc : count_class_defs parse nb with
  | error e =>
    rw [notebookLinterResults] at h
    rw [hc] at h
    simp [Bind.bind, Except.bind] at h
  | ok classDefs =>
    cases hf : count_func_defs parse nb with
    | error e =>
      rw [notebookLinterResults] at h
      rw [hc, hf] at h
      simp [Bind.bind, Except.bind] at h
    | ok funcDefs =>
      cases hi : are_imports_in_first_cell parse nb with
      | error e =>
        rw [notebookLinterResults] at h
        rw [hc, hf, hi] at h
        simp [Bind.bind, Except.bind] at h
      | ok importsFirst =>
        rw [notebookLinterResults] at h
        rw [hc, hf, hi] at h
        simp only [Bind.bind, Except.bind, Except.ok.injEq] at h
        subst h
        refine ⟨rfl, rfl, ?_⟩
        intro hpre
        have hratio : get_bottom_md_lines_ratio nb 4 = none := by
          rw [get_bottom_md_lines_ratio]
          exact if_neg hpre
        have hbne : count_bottom_non_executed_cells nb 4 = none := by
          rw [count_bottom_non_executed_cells]
          exact if_neg hpre
        have hbe : count_bottom_empty_cells nb 4 = none := by
          rw [count_bottom_empty_cells]
          exact if_neg hpre
        refine ⟨?_, ?_, ?_⟩
        · simp [hratio, optRatVal]
        · simp [hbne, optNatVal]
        · simp [hbe, optNatVal]

/-- The analysis of the empty notebook produces exactly the report above:
every count is zero and the three bottom-window rules store the sentinel. -/
theorem notebookLinterResults_nbEmptyCells :
    notebookLinterResults miniPyParse nbEmptyCells
      = Except.ok emptyNotebookReport := by
  have hpre : ¬(((4 : Nat) : ℚ) < ((0 : Nat) : ℚ) / 3) := by norm_num
  have hratio : get_bottom_md_lines_ratio nbEmptyCells 4 = none := by
    rw [get_bottom_md_lines_ratio]
    exact if_neg hpre
  have hbne : count_bottom_non_executed_cells nbEmptyCells 4 = none := by
    rw [count_bottom_non_executed_cells]
    exact if_neg hpre
  have hbe : count_bottom_empty_cells nbEmptyCells 4 = none := by
    rw [count_bottom_empty_cells]
    exact if_neg hpre
  rw [notebookLinterResults]
  rw [show count_class_defs miniPyParse nbEmptyCells = Except.ok 0 from rfl]
  rw [show count_func_defs miniPyParse nbEmptyCells = Except.ok 0 from rfl]
  rw [show are_imports_in_first_cell miniPyParse nbEmptyCells
        = Except.ok true from rfl]
  simp only [Bind.bind, Except.bind, Except.ok.injEq]
  rw [hratio, hbne, hbe]
  rfl

/-- Concrete instance of the fixed-keys theorem on the empty notebook. -/
theorem report_fixed_keys_witness :
    emptyNotebookReport.notebookStats.map Prod.fst
        = ["numberOfCells", "numberOfMDCells", "numberOfCodeCells", "numberOfRawCells"]
    ∧ ("bottomNonExecutedCells", LintValue.na) ∈ emptyNotebookReport.lintingResults :=
  ⟨(report_fixed_keys miniPyParse nbEmptyCells emptyNotebookReport
      notebookLinterResults_nbEmptyCells).1,
   ((report_fixed_keys miniPyParse nbEmptyCells emptyNotebookReport
      notebookLinterResults_nbEmptyCells).2.2 (by norm_num [count_cells, nbEmptyCells])).2.1⟩
